import Mathlib

/-!
# Face-Analyzer: verification of the embedding engine, record store and hub

A shallow embedding of the core of the Face-Analyzer repository:

* `src/src/database/embeddings.rs` — `EmbeddingGenerator::postprocess_output`,
  `EmbeddingComparator::{cosine_similarity, find_matches, cluster_embeddings}`;
* `src/src/database/storage.rs` — `Database::{store_face, get_face,
  search_faces, update_face, delete_face}` over an explicit store state;
* `src/src/api/websocket.rs` — `WsManager` and its subscriber registry.

Floating-point values (`f32` in the source) are modelled by `F`: exact
rational payloads plus the IEEE special values; arithmetic follows the
IEEE special-value rules while finite arithmetic is exact (no rounding).
No theorem below depends on rounding behaviour.
-/

/-- Model of the `f32` values the source manipulates: a rational payload for
finite values plus `inf`, `ninf` and `nan`. Signed zero is not distinguished. -/
inductive F where
  | num (q : ℚ)
  | inf
  | ninf
  | nan
deriving DecidableEq, Repr

namespace F

/-- `f32::is_nan`. -/
def isNan : F → Bool
  | nan => true
  | _ => false

/-- IEEE addition on the model: `nan` propagates, opposite infinities give `nan`. -/
def add : F → F → F
  | nan, _ => nan
  | _, nan => nan
  | inf, ninf => nan
  | ninf, inf => nan
  | inf, _ => inf
  | _, inf => inf
  | ninf, _ => ninf
  | _, ninf => ninf
  | num a, num b => num (a + b)

/-- IEEE multiplication on the model: `nan` propagates, `0 * ±inf` is `nan`. -/
def mul : F → F → F
  | nan, _ => nan
  | _, nan => nan
  | inf, inf => inf
  | inf, ninf => ninf
  | ninf, inf => ninf
  | ninf, ninf => inf
  | inf, num b => if b = 0 then nan else if 0 < b then inf else ninf
  | num a, inf => if a = 0 then nan else if 0 < a then inf else ninf
  | ninf, num b => if b = 0 then nan else if 0 < b then ninf else inf
  | num a, ninf => if a = 0 then nan else if 0 < a then ninf else inf
  | num a, num b => num (a * b)

/-- IEEE division on the model: `nan` propagates, `0/0` and `±inf/±inf` are
`nan`, a nonzero finite value over zero is a (here unsigned) infinity. -/
def div : F → F → F
  | nan, _ => nan
  | _, nan => nan
  | inf, inf => nan
  | inf, ninf => nan
  | ninf, inf => nan
  | ninf, ninf => nan
  | num _, inf => num 0
  | num _, ninf => num 0
  | inf, num b => if 0 ≤ b then inf else ninf
  | ninf, num b => if 0 ≤ b then ninf else inf
  | num a, num b =>
    if b = 0 then (if a = 0 then nan else if 0 < a then inf else ninf)
    else num (a / b)

instance : Add F := ⟨F.add⟩
instance : Mul F := ⟨F.mul⟩
instance : Div F := ⟨F.div⟩

/-- IEEE square root on the model: `nan` for negative arguments. On nonnegative
rationals the payload is `Rat.sqrt`, which is the exact square root whenever the
argument is the square of a rational; no theorem below depends on its value at
non-squares. -/
def sqrt : F → F
  | nan => nan
  | inf => inf
  | ninf => nan
  | num q => if q < 0 then nan else num (Rat.sqrt q)

/-- IEEE strict less-than (`<` on `f32`): false whenever either side is `nan`. -/
def blt : F → F → Bool
  | nan, _ => false
  | _, nan => false
  | ninf, ninf => false
  | ninf, num _ => true
  | ninf, inf => true
  | num _, ninf => false
  | num a, num b => decide (a < b)
  | num _, inf => true
  | inf, _ => false

/-- IEEE non-strict less-than-or-equal (`<=` on `f32`): false whenever either
side is `nan`. -/
def ble : F → F → Bool
  | nan, _ => false
  | _, nan => false
  | ninf, _ => true
  | num _, ninf => false
  | num a, num b => decide (a ≤ b)
  | num _, inf => true
  | inf, inf => true
  | inf, _ => false

/-- A total order on the model that extends the IEEE order on non-`nan` values
(`nan` is placed below everything). `find_matches` runs its sort with this
total comparator; its guard returns `none` exactly when the Rust comparator
`partial_cmp(..).unwrap()` would be handed a `nan` and panic, so the extension
at `nan` is never observable on the branch that sorts. -/
def leTotal : F → F → Bool
  | nan, _ => true
  | _, nan => false
  | ninf, _ => true
  | num _, ninf => false
  | num a, num b => decide (a ≤ b)
  | num _, inf => true
  | inf, inf => true
  | inf, _ => false

end F

/-- `FaceMetadata` (src/src/database/embeddings.rs:14-21). `chrono` timestamps
are modelled as integers (only their ordering and equality matter here). -/
structure FaceMetadata where
  name : Option String
  tags : List String
  timestamp : Int
  source_image : String
  confidence : F
deriving DecidableEq, Repr

/-- `FaceEmbedding` (src/src/database/embeddings.rs:7-12). -/
structure FaceEmbedding where
  embedding : List F
  face_id : String
  metadata : FaceMetadata
deriving DecidableEq, Repr

/-- `EmbeddingComparator::cosine_similarity` (src/src/database/embeddings.rs:114-126):
one pass over the zipped inputs accumulating the dot product and both squared
norms, then `dot_product / (norm1.sqrt() * norm2.sqrt())` — the source has no
zero-norm guard. -/
def cosine_similarity (emb1 emb2 : List F) : F :=
  let acc := (emb1.zip emb2).foldl
    (fun (a : F × F × F) p =>
      (a.1 + p.1 * p.2, a.2.1 + p.1 * p.1, a.2.2 + p.2 * p.2))
    (F.num 0, F.num 0, F.num 0)
  acc.1 / (F.sqrt acc.2.1 * F.sqrt acc.2.2)

/-- `EmbeddingGenerator::postprocess_output` (src/src/database/embeddings.rs:86-108),
after the output tensor has been extracted as a float list (`embedding_size` is
the `EmbeddingGenerator` field, set to 512 in `new`). The only validation in
the source is the length check; the norm is used without a zero test. -/
def postprocess_output (embedding_size : Nat) (embedding : List F) : Except String (List F) :=
  if embedding.length ≠ embedding_size then
    Except.error "Unexpected embedding size"
  else
    let sum_squares := embedding.foldl (fun acc x => acc + x * x) (F.num 0)
    let norm := F.sqrt sum_squares
    Except.ok (embedding.map (fun x => x / norm))

/-- The first loop of `EmbeddingComparator::find_matches`
(src/src/database/embeddings.rs:144-149): keep, in corpus order, each entry
whose similarity to the query is strictly greater than the threshold.
`similarity > threshold` is IEEE `>`, i.e. `F.blt threshold similarity`, which
is false whenever the similarity is `nan`. -/
def thresholdMatches (query_embedding : List F)
    (database_embeddings : List FaceEmbedding) (threshold : F) : List (String × F) :=
  database_embeddings.filterMap (fun db_face =>
    let similarity := cosine_similarity query_embedding db_face.embedding
    if F.blt threshold similarity then some (db_face.face_id, similarity) else none)

/-- `EmbeddingComparator::find_matches` (src/src/database/embeddings.rs:137-154).
The Rust sort `matches.sort_by(|a, b| b.1.partial_cmp(&a.1).unwrap())` is a
stable sort in descending score order whose comparator panics exactly when it
is handed a `nan` score; with at least two entries the stable sort compares
every entry with a neighbour, so the guard below fires precisely when the
source would panic (`none`). Otherwise the comparator behaves as a total order
on the scores present, modelled by the stable `List.mergeSort` with the total
extension `F.leTotal`, which agrees with the IEEE order on every non-`nan`
score. -/
def find_matches (query_embedding : List F)
    (database_embeddings : List FaceEmbedding) (threshold : F) :
    Option (List (String × F)) :=
  let kept := thresholdMatches query_embedding database_embeddings threshold
  if 2 ≤ kept.length ∧ (kept.any fun m => m.2.isNan) = true then
    none
  else
    some (kept.mergeSort (fun a b => F.leTotal b.2 a.2))

/-- `EmbeddingComparator::cluster_embeddings` (src/src/database/embeddings.rs:156-191).
The source walks indices with an `assigned` bit-vector: each not-yet-assigned
item opens a cluster seeded by itself, and every later not-yet-assigned item
whose similarity **to the seed** exceeds the threshold is pushed into the
cluster and marked assigned. The marked items are exactly the items that are no
longer in the worklist of the recursion below: split the tail by the
seed-similarity test, emit the cluster, recurse on the unmatched remainder. -/
def cluster_embeddings (embeddings : List FaceEmbedding) (threshold : F) :
    List (List String) :=
  match embeddings with
  | [] => []
  | seed :: rest =>
    let matched := rest.filter
      (fun e => F.blt threshold (cosine_similarity seed.embedding e.embedding))
    let remaining := rest.filter
      (fun e => ! F.blt threshold (cosine_similarity seed.embedding e.embedding))
    (seed.face_id :: matched.map (fun e => e.face_id)) ::
      cluster_embeddings remaining threshold
termination_by embeddings.length
decreasing_by
  simp only [List.length_cons]
  exact Nat.lt_succ_of_le (List.length_filter_le _ rest)

/-! ## The record store (`src/src/database/storage.rs`)

`Database` holds a Postgres pool and a `DatabaseConfig` with the artifact root
`image_storage_path`. The state visible to the claims is the `faces` table and
the artifact filesystem, modelled explicitly below. The `faces` table has `id`
as its only PRIMARY KEY, so a row is uniquely determined by its id and an
INSERT with an existing id fails. `tokio::fs` and the SQL engine are external
to the repository; their effects are modelled from the spec (§4.3, §6:
id-keyed artifacts, `DuplicateId` on existing id, per-row atomic operations). -/

/-- One row of the `faces` table (schema in storage.rs:46-65). Ids are kept as
strings: §3 calls `face_id` an opaque unique identifier, and the external
`uuid` crate's parse/print round trip is the identity on canonical ids. -/
structure Row where
  id : String
  embedding : List F
  name : Option String
  tags : List String
  timestamp : Int
  source_image : String
  confidence : F
deriving DecidableEq, Repr

/-- Failures surfaced by the store (all are `anyhow` errors in the source;
split here by cause). -/
inductive StoreError where
  | FsError (path : String)
  | DuplicateId
deriving DecidableEq, Repr

/-- The state a `Database` value acts on: the configured artifact root
(`config.image_storage_path`), the `faces` table, and the set of paths present
on the artifact filesystem. -/
structure DbState where
  imageRoot : String
  rows : List Row
  files : List String
deriving DecidableEq, Repr

/-- Modelled from the spec: `tokio::fs::copy` (external crate). Fails when the
source path does not exist; otherwise the destination path exists afterwards. -/
def fsCopy (files : List String) (src dst : String) : Except StoreError (List String) :=
  if src ∈ files then
    Except.ok (if dst ∈ files then files else dst :: files)
  else
    Except.error (StoreError.FsError src)

/-- Modelled from the spec: `tokio::fs::remove_file` (external crate). Fails
when the path does not exist; otherwise the path is gone afterwards. -/
def fsRemove (files : List String) (path : String) : Except StoreError (List String) :=
  if path ∈ files then Except.ok (files.erase path)
  else Except.error (StoreError.FsError path)

/-- The artifact path `store_face` writes: `format!("{}.jpg", face.face_id)`
joined under `config.image_storage_path` (storage.rs:70-71). -/
def storagePathFor (imageRoot face_id : String) : String :=
  imageRoot ++ "/" ++ face_id ++ ".jpg"

/-- `Database::store_face` (storage.rs:67-98): copy the source image to the
id-keyed storage path first, then INSERT the row — note the row's
`source_image` column receives the *storage* path, not the record's original
`source_image`. The INSERT fails on an existing id (PRIMARY KEY). -/
def store_face (db : DbState) (face : FaceEmbedding) : Except StoreError DbState :=
  let storage_path := storagePathFor db.imageRoot face.face_id
  match fsCopy db.files face.metadata.source_image storage_path with
  | Except.error e => Except.error e
  | Except.ok files' =>
    if db.rows.any (fun r => r.id == face.face_id) then
      Except.error StoreError.DuplicateId
    else
      Except.ok { db with
        files := files'
        rows := db.rows ++ [{
          id := face.face_id
          embedding := face.embedding
          name := face.metadata.name
          tags := face.metadata.tags
          timestamp := face.metadata.timestamp
          source_image := storage_path
          confidence := face.metadata.confidence }] }

/-- `Database::get_face` (storage.rs:100-121): `SELECT * FROM faces WHERE id =
$1` with `fetch_optional`, then rebuild a `FaceEmbedding` from the row. -/
def get_face (db : DbState) (face_id : String) : Option FaceEmbedding :=
  (db.rows.find? (fun r => r.id == face_id)).map (fun r =>
    { face_id := r.id
      embedding := r.embedding
      metadata := {
        name := r.name
        tags := r.tags
        timestamp := r.timestamp
        source_image := r.source_image
        confidence := r.confidence } })

/-- Observable side effects of `delete_face`, in program order. -/
inductive DbAction where
  | removedFile (path : String)
  | fileRemovalFailed (path : String)
  | removedRow (id : String)
deriving DecidableEq, Repr

/-- `Database::delete_face` (storage.rs:212-241): SELECT the row's
`source_image`; if a row exists, try `fs::remove_file` on it **first**, logging
and swallowing any failure (`eprintln!`); only then DELETE the row. The action
trace records the order of the two effects. -/
def delete_face (db : DbState) (face_id : String) : DbState × List DbAction :=
  let rows' := db.rows.filter (fun r => r.id != face_id)
  match db.rows.find? (fun r => r.id == face_id) with
  | some r =>
    match fsRemove db.files r.source_image with
    | Except.ok files' =>
      ({ db with files := files', rows := rows' },
        [DbAction.removedFile r.source_image, DbAction.removedRow face_id])
    | Except.error _ =>
      ({ db with rows := rows' },
        [DbAction.fileRemovalFailed r.source_image, DbAction.removedRow face_id])
  | none => ({ db with rows := rows' }, [DbAction.removedRow face_id])

/-- `SearchQuery` (storage.rs:268-274); timestamps as integers, the confidence
bound still a float. -/
structure SearchQuery where
  name : Option String
  tags : Option (List String)
  start_date : Option Int
  end_date : Option Int
  min_confidence : Option F
deriving DecidableEq, Repr

/-- `FaceUpdates` (storage.rs:276-280). -/
structure FaceUpdates where
  name : Option String
  tags : Option (List String)
  confidence : Option F
deriving DecidableEq, Repr

/-- Modelled from the spec: the decimal rendering `ToString` of the external
standard library, used by the query builders only as an opaque non-empty
rendering of the value (`Rat.repr` style for finite values). -/
def fToString : F → String
  | F.num q => toString q
  | F.inf => "inf"
  | F.ninf => "-inf"
  | F.nan => "NaN"

/-- The SQL-text builder of `Database::search_faces` (storage.rs:124-152),
verbatim: each present filter appends its clause with a **hard-coded**
placeholder number (`$1` name, `$2` tags, `$3` start, `$4` end, `$5`
confidence) and pushes its rendered value onto `params` — so the position of a
value in `params` is its presence order, not its placeholder number. -/
def build_search_sql (query : SearchQuery) : String × List String :=
  let sql := "SELECT * FROM faces WHERE 1=1"
  let params : List String := []
  let (sql, params) := match query.name with
    | some n => (sql ++ " AND name ILIKE $1", params ++ ["%" ++ n ++ "%"])
    | none => (sql, params)
  let (sql, params) := match query.tags with
    | some ts => (sql ++ " AND tags && $2", params ++ [String.intercalate "," ts])
    | none => (sql, params)
  let (sql, params) := match query.start_date with
    | some d => (sql ++ " AND timestamp >= $3", params ++ [toString d])
    | none => (sql, params)
  let (sql, params) := match query.end_date with
    | some d => (sql ++ " AND timestamp <= $4", params ++ [toString d])
    | none => (sql, params)
  let (sql, params) := match query.min_confidence with
    | some c => (sql ++ " AND confidence >= $5", params ++ [fToString c])
    | none => (sql, params)
  (sql ++ " ORDER BY timestamp DESC", params)

/-- The bind sequence of `search_faces` (storage.rs:154-159): always five
positional binds, `params.get(i).unwrap_or(&String::new())` for `i = 0..5`, so
placeholder `$n` of the statement receives the `n`-th entry of this list. -/
def search_binds (params : List String) : List String :=
  [params.getD 0 "", params.getD 1 "", params.getD 2 "",
   params.getD 3 "", params.getD 4 ""]

/-- The SQL-text builder of `Database::update_face` (storage.rs:178-199),
verbatim: present fields append `" name = $1,"` / `" tags = $2,"` /
`" confidence = $3,"` with hard-coded placeholder numbers while pushing values
in presence order; then `sql.pop()` drops the last character (the trailing
comma — or the `T` of `SET` when no field is present) and `" WHERE id = $4"`
is appended. -/
def build_update_sql (updates : FaceUpdates) : String × List String :=
  let sql := "UPDATE faces SET"
  let params : List String := []
  let (sql, params) := match updates.name with
    | some n => (sql ++ " name = $1,", params ++ [n])
    | none => (sql, params)
  let (sql, params) := match updates.tags with
    | some ts => (sql ++ " tags = $2,", params ++ [String.intercalate "," ts])
    | none => (sql, params)
  let (sql, params) := match updates.confidence with
    | some c => (sql ++ " confidence = $3,", params ++ [fToString c])
    | none => (sql, params)
  (sql.dropRight 1 ++ " WHERE id = $4", params)

/-- The bind sequence of `update_face` (storage.rs:201-205): three positional
binds `params.get(i).unwrap_or(&String::new())` for `i = 0..3`, then the id at
`$4`; placeholder `$n` (`n ≤ 3`) receives the `n`-th entry of this list. -/
def update_binds (params : List String) : List String :=
  [params.getD 0 "", params.getD 1 "", params.getD 2 ""]

/-! ## The notification hub (`src/src/api/websocket.rs`)

`WsManager` maps connection ids to `tokio::sync::broadcast` senders of
capacity 100 (websocket.rs:74-101). The channel itself is external; per the
spec (§4.4) delivery appends to the subscriber's bounded buffer and a full
buffer silently misses the event. A connection is modelled as its id together
with its buffer of delivered events. -/

/-- `WsMessage` (websocket.rs:15-20). -/
inductive WsMessage where
  | FaceDetected (face : FaceEmbedding)
  | FaceUpdated (face : FaceEmbedding)
  | FaceDeleted (id : String)
  | Error (msg : String)
deriving DecidableEq, Repr

/-- The buffer capacity of each subscriber channel:
`broadcast::channel(100)` (websocket.rs:87). -/
def wsChannelCapacity : Nat := 100

/-- `WsManager` (websocket.rs:74-76): the registry `connections`, each entry an
id with its subscriber buffer. -/
structure WsManager where
  connections : List (String × List WsMessage)
deriving DecidableEq, Repr

/-- `WsManager::create_connection` (websocket.rs:85-90): register a fresh id
(generated by the external `Uuid::new_v4`, here a parameter) with an empty
buffer and return it. -/
def create_connection (m : WsManager) (id : String) : WsManager × String :=
  ({ connections := m.connections ++ [(id, [])] }, id)

/-- `WsManager::remove_connection` (websocket.rs:92-94): `HashMap::remove`,
which drops the entry when present and is a no-op otherwise. -/
def remove_connection (m : WsManager) (id : String) : WsManager :=
  { connections := m.connections.filter (fun c => c.1 != id) }

/-- `WsManager::broadcast` (websocket.rs:96-100): send the event to every
registered sender, ignoring individual send results. Modelled from the spec
(§4.4): delivery appends to the subscriber's buffer unless the buffer is at
capacity, in which case that subscriber silently misses the event. -/
def broadcast (m : WsManager) (msg : WsMessage) : WsManager :=
  { connections := m.connections.map (fun c =>
      (c.1, if c.2.length < wsChannelCapacity then c.2 ++ [msg] else c.2)) }

/-- The buffer registered under `id`, if any (the registry is keyed by id). -/
def wsBuffer (m : WsManager) (id : String) : Option (List WsMessage) :=
  (m.connections.find? (fun c => c.1 == id)).map (fun c => c.2)

/-! ## Lemmas and claim theorems -/

section ClaimProofs

attribute [local semireducible] Rat.add Rat.mul Rat.inv

lemma F_zero_mul_cases (x : F) : F.num 0 * x = F.num 0 ∨ F.num 0 * x = F.nan := by
  cases x with
  | num q => left; show F.mul _ _ = _; simp [F.mul]
  | inf => right; decide
  | ninf => right; decide
  | nan => right; decide

lemma F_mul_zero_cases (x : F) : x * F.num 0 = F.num 0 ∨ x * F.num 0 = F.nan := by
  cases x with
  | num q => left; show F.mul _ _ = _; simp [F.mul]
  | inf => right; decide
  | ninf => right; decide
  | nan => right; decide

lemma F_add_zero_nan {x y : F} (hx : x = F.num 0 ∨ x = F.nan)
    (hy : y = F.num 0 ∨ y = F.nan) : x + y = F.num 0 ∨ x + y = F.nan := by
  rcases hx with hx | hx <;> rcases hy with hy | hy <;> subst hx <;> subst hy
  · left; decide
  · right; decide
  · right; decide
  · right; decide

lemma F_div_nan_of {x y : F} (hx : x = F.num 0 ∨ x = F.nan)
    (hy : y = F.num 0 ∨ y = F.nan) : x / y = F.nan := by
  rcases hx with hx | hx <;> rcases hy with hy | hy <;> subst hx <;> subst hy <;> decide

lemma F_sqrt_zero : F.sqrt (F.num 0) = F.num 0 := by decide

/-- Invariant of the accumulation loop of `cosine_similarity` when every left
component is zero: the dot product stays `0` or `nan` and the first squared
norm stays exactly `0`. -/
lemma cos_fold_fst_zero :
    ∀ (l : List (F × F)), (∀ p ∈ l, p.1 = F.num 0) →
    ∀ d n1 n2 : F, (d = F.num 0 ∨ d = F.nan) → n1 = F.num 0 →
      ((l.foldl (fun (a : F × F × F) p =>
          (a.1 + p.1 * p.2, a.2.1 + p.1 * p.1, a.2.2 + p.2 * p.2)) (d, n1, n2)).1 = F.num 0 ∨
       (l.foldl (fun (a : F × F × F) p =>
          (a.1 + p.1 * p.2, a.2.1 + p.1 * p.1, a.2.2 + p.2 * p.2)) (d, n1, n2)).1 = F.nan) ∧
      (l.foldl (fun (a : F × F × F) p =>
          (a.1 + p.1 * p.2, a.2.1 + p.1 * p.1, a.2.2 + p.2 * p.2)) (d, n1, n2)).2.1 = F.num 0 := by
  intro l
  induction l with
  | nil => intro h d n1 n2 hd hn1; exact ⟨hd, hn1⟩
  | cons p tl ih =>
    intro h d n1 n2 hd hn1
    have hp : p.1 = F.num 0 := h p (List.mem_cons_self _ _)
    have htl : ∀ q ∈ tl, q.1 = F.num 0 := fun q hq => h q (List.mem_cons_of_mem _ hq)
    simp only [List.foldl_cons]
    refine ih htl _ _ _ ?_ ?_
    · rw [hp]; exact F_add_zero_nan hd (F_zero_mul_cases p.2)
    · rw [hp, hn1]; decide

/-- Invariant of the accumulation loop of `cosine_similarity` when every right
component is zero: the dot product stays `0` or `nan` and the second squared
norm stays exactly `0`. -/
lemma cos_fold_snd_zero :
    ∀ (l : List (F × F)), (∀ p ∈ l, p.2 = F.num 0) →
    ∀ d n1 n2 : F, (d = F.num 0 ∨ d = F.nan) → n2 = F.num 0 →
      ((l.foldl (fun (a : F × F × F) p =>
          (a.1 + p.1 * p.2, a.2.1 + p.1 * p.1, a.2.2 + p.2 * p.2)) (d, n1, n2)).1 = F.num 0 ∨
       (l.foldl (fun (a : F × F × F) p =>
          (a.1 + p.1 * p.2, a.2.1 + p.1 * p.1, a.2.2 + p.2 * p.2)) (d, n1, n2)).1 = F.nan) ∧
      (l.foldl (fun (a : F × F × F) p =>
          (a.1 + p.1 * p.2, a.2.1 + p.1 * p.1, a.2.2 + p.2 * p.2)) (d, n1, n2)).2.2 = F.num 0 := by
  intro l
  induction l with
  | nil => intro h d n1 n2 hd hn2; exact ⟨hd, hn2⟩
  | cons p tl ih =>
    intro h d n1 n2 hd hn2
    have hp : p.2 = F.num 0 := h p (List.mem_cons_self _ _)
    have htl : ∀ q ∈ tl, q.2 = F.num 0 := fun q hq => h q (List.mem_cons_of_mem _ hq)
    simp only [List.foldl_cons]
    refine ih htl _ _ _ ?_ ?_
    · rw [hp]; exact F_add_zero_nan hd (F_mul_zero_cases p.1)
    · rw [hp, hn2]; decide

/-- C3, counterexample. The spec claims `cosine_similarity` "returns 0 if
either vector has zero norm"; on the zero vector against itself the source
computes `0.0 / (0.0 * 0.0)`, which is `nan`, not `0`. -/
theorem claim_C3_counterexample :
    cosine_similarity [F.num 0] [F.num 0] = F.nan ∧ F.nan ≠ F.num 0 := by
  constructor
  · decide
  · decide

/-- C3, amended: `cosine_similarity` has no zero-norm guard. Whenever either
input vector is identically zero (the only way a finite vector has zero norm in
exact arithmetic), the division is `0/0` — or `nan/0` if the other vector has
non-finite entries — and the result is `nan`, never `0`. Division by a zero
denominator does occur. -/
theorem claim_C3_zero_norm (a b : List F)
    (h : (∀ x ∈ a, x = F.num 0) ∨ (∀ x ∈ b, x = F.num 0)) :
    cosine_similarity a b = F.nan := by
  simp only [cosine_similarity]
  rcases h with ha | hb
  · have hz : ∀ p ∈ a.zip b, p.1 = F.num 0 := fun p hp =>
      ha p.1 (List.of_mem_zip (by simpa using hp)).1
    obtain ⟨hdot, hn1⟩ := cos_fold_fst_zero (a.zip b) hz
      (F.num 0) (F.num 0) (F.num 0) (Or.inl rfl) rfl
    rw [hn1, F_sqrt_zero]
    exact F_div_nan_of hdot (F_zero_mul_cases _)
  · have hz : ∀ p ∈ a.zip b, p.2 = F.num 0 := fun p hp =>
      hb p.2 (List.of_mem_zip (by simpa using hp)).2
    obtain ⟨hdot, hn2⟩ := cos_fold_snd_zero (a.zip b) hz
      (F.num 0) (F.num 0) (F.num 0) (Or.inl rfl) rfl
    rw [hn2, F_sqrt_zero]
    exact F_div_nan_of hdot (F_mul_zero_cases _)

/-- C3, witness: the amended theorem at the zero vector against a unit vector. -/
theorem claim_C3_witness : cosine_similarity [F.num 0] [F.num 1] = F.nan :=
  claim_C3_zero_norm [F.num 0] [F.num 1] (Or.inl (by simp))

lemma sq_fold_zero :
    ∀ (l : List F), (∀ x ∈ l, x = F.num 0) → ∀ acc : F, acc = F.num 0 →
      l.foldl (fun acc x => acc + x * x) acc = F.num 0 := by
  intro l
  induction l with
  | nil => intro _ acc hacc; exact hacc
  | cons x tl ih =>
    intro h acc hacc
    have hx : x = F.num 0 := h x (List.mem_cons_self _ _)
    have htl : ∀ y ∈ tl, y = F.num 0 := fun y hy => h y (List.mem_cons_of_mem _ hy)
    simp only [List.foldl_cons]
    refine ih htl _ ?_
    rw [hx, hacc]; decide

lemma map_div_zero :
    ∀ (l : List F), (∀ x ∈ l, x = F.num 0) →
      l.map (fun x => x / F.num 0) = List.replicate l.length F.nan := by
  intro l
  induction l with
  | nil => intro _; rfl
  | cons x tl ih =>
    intro h
    have hx : x = F.num 0 := h x (List.mem_cons_self _ _)
    have htl : ∀ y ∈ tl, y = F.num 0 := fun y hy => h y (List.mem_cons_of_mem _ hy)
    simp only [List.map_cons, List.length_cons, List.replicate_succ]
    rw [hx, ih htl]
    have hdz : F.num 0 / F.num 0 = F.nan := by decide
    rw [hdz]

/-- C2, counterexample. The spec claims `postprocess_output` fails with
`DegenerateEmbedding` whenever the raw output has zero norm; on the
all-zero output of length `D = 2` the source succeeds and returns `nan`
components instead (it divides by the zero norm unguarded). -/
theorem claim_C2_counterexample :
    postprocess_output 2 [F.num 0, F.num 0] = Except.ok [F.nan, F.nan] ∧
    (postprocess_output 2 [F.num 0, F.num 0]).isOk = true := by
  constructor
  · rfl
  · rfl

/-- C2, amended: a raw output whose length differs from `embedding_size` fails
with the shape error; every output of the right length succeeds with a result
of length `D` — there is no `DegenerateEmbedding` failure. In particular an
all-zero raw output (zero norm) succeeds, every component becoming `nan` by
the unguarded division by the zero norm. -/
theorem claim_C2_postprocess (D : Nat) (xs : List F) :
    (xs.length ≠ D → postprocess_output D xs = Except.error "Unexpected embedding size") ∧
    (xs.length = D → ∃ ys, postprocess_output D xs = Except.ok ys ∧ ys.length = D) ∧
    (xs.length = D → (∀ x ∈ xs, x = F.num 0) →
      postprocess_output D xs = Except.ok (List.replicate D F.nan)) := by
  refine ⟨fun h => by simp [postprocess_output, h], fun h => ?_, fun h hz => ?_⟩
  · refine ⟨xs.map (fun x =>
        x / F.sqrt (xs.foldl (fun acc x => acc + x * x) (F.num 0))), ?_, by simp [h]⟩
    simp [postprocess_output, h]
  · simp only [postprocess_output, h, ne_eq, not_true_eq_false, if_false, ite_false]
    rw [sq_fold_zero xs hz _ rfl, F_sqrt_zero, map_div_zero xs hz, h]

lemma find?_append_none {α} {p : α → Bool} {l₁ l₂ : List α} (h : l₁.find? p = none) :
    (l₁ ++ l₂).find? p = l₂.find? p := by
  rw [List.find?_append, h]
  rfl

/-- C1, counterexample. The round trip does not return a record equal to `r`:
`store_face` rewrites `source_image` to the id-keyed storage path
(`data/faces/a.jpg` here), so `get_face` returns a record whose
`source_image` differs from the stored record's original `orig.png`. -/
theorem claim_C1_counterexample :
    store_face ⟨"data/faces", [], ["orig.png"]⟩
        ⟨[F.num 1], "a", ⟨none, [], 0, "orig.png", F.num 1⟩⟩ =
      Except.ok ⟨"data/faces",
        [⟨"a", [F.num 1], none, [], 0, "data/faces/a.jpg", F.num 1⟩],
        ["data/faces/a.jpg", "orig.png"]⟩ ∧
    get_face ⟨"data/faces",
        [⟨"a", [F.num 1], none, [], 0, "data/faces/a.jpg", F.num 1⟩],
        ["data/faces/a.jpg", "orig.png"]⟩ "a" ≠
      some ⟨[F.num 1], "a", ⟨none, [], 0, "orig.png", F.num 1⟩⟩ := by
  constructor
  · rfl
  · decide

/-- C1, amended: storing a record with a fresh `face_id` (source image present
on disk) and reading it back returns a record agreeing with `r` on `face_id`,
`embedding`, `name`, `tags`, `timestamp` and `confidence`, but with
`source_image` replaced by the id-keyed storage path
`image_storage_path/<face_id>.jpg` that `store_face` writes into the row. -/
theorem claim_C1_store_get (db : DbState) (r : FaceEmbedding)
    (hfresh : ∀ row ∈ db.rows, row.id ≠ r.face_id)
    (hsrc : r.metadata.source_image ∈ db.files) :
    ∃ db', store_face db r = Except.ok db' ∧
      get_face db' r.face_id =
        some { r with metadata :=
          { r.metadata with source_image := storagePathFor db.imageRoot r.face_id } } := by
  have hany : (db.rows.any fun row => row.id == r.face_id) = false := by
    rw [List.any_eq_false]
    intro row hrow
    simpa using hfresh row hrow
  refine ⟨{ db with
    files := if storagePathFor db.imageRoot r.face_id ∈ db.files then db.files
      else storagePathFor db.imageRoot r.face_id :: db.files
    rows := db.rows ++ [{
      id := r.face_id
      embedding := r.embedding
      name := r.metadata.name
      tags := r.metadata.tags
      timestamp := r.metadata.timestamp
      source_image := storagePathFor db.imageRoot r.face_id
      confidence := r.metadata.confidence }] }, ?_, ?_⟩
  · unfold store_face fsCopy
    simp [hsrc, hany]
  · unfold get_face
    rw [find?_append_none (List.find?_eq_none.mpr fun row hrow => by
      simpa using hfresh row hrow)]
    rw [List.find?_cons_of_pos _ (by simp)]
    rfl

/-- C1, witness: the amended theorem at a one-record store. -/
theorem claim_C1_witness :
    ∃ db', store_face ⟨"data/faces", [], ["orig.png"]⟩
        ⟨[F.num 1], "a", ⟨none, [], 0, "orig.png", F.num 1⟩⟩ = Except.ok db' ∧
      get_face db' "a" =
        some ⟨[F.num 1], "a", ⟨none, [], 0, "data/faces/a.jpg", F.num 1⟩⟩ :=
  claim_C1_store_get ⟨"data/faces", [], ["orig.png"]⟩
    ⟨[F.num 1], "a", ⟨none, [], 0, "orig.png", F.num 1⟩⟩
    (by simp) (by simp)

lemma find?_id_filter_ne (l : List Row) (i : String) :
    (l.filter fun r => r.id != i).find? (fun r => r.id == i) = none := by
  rw [List.find?_eq_none]
  intro x hx
  have hne := (List.mem_filter.mp hx).2
  simp only [bne_iff_ne, ne_eq] at hne
  simp [hne]

lemma delete_face_rows (db : DbState) (i : String) :
    ((delete_face db i).1).rows = db.rows.filter (fun r => r.id != i) := by
  unfold delete_face
  split
  · split <;> rfl
  · rfl

lemma delete_face_trace (db : DbState) (i : String) :
    (delete_face db i).2 = [DbAction.removedRow i] ∨
    ∃ p, (delete_face db i).2 = [DbAction.removedFile p, DbAction.removedRow i] ∨
         (delete_face db i).2 = [DbAction.fileRemovalFailed p, DbAction.removedRow i] := by
  unfold delete_face
  split
  · split
    · right; exact ⟨_, Or.inl rfl⟩
    · right; exact ⟨_, Or.inr rfl⟩
  · left; rfl

/-- C5, counterexample. On a one-record store the trace of `delete_face` is
artifact removal **first**, then the row removal — its first action is not the
row deletion, contradicting "first removes the database row and only
afterwards attempts to remove the paired image artifact". -/
theorem claim_C5_counterexample :
    (delete_face ⟨"data/faces",
        [⟨"a", [F.num 1], none, [], 0, "data/faces/a.jpg", F.num 1⟩],
        ["data/faces/a.jpg"]⟩ "a").2 =
      [DbAction.removedFile "data/faces/a.jpg", DbAction.removedRow "a"] ∧
    ((delete_face ⟨"data/faces",
        [⟨"a", [F.num 1], none, [], 0, "data/faces/a.jpg", F.num 1⟩],
        ["data/faces/a.jpg"]⟩ "a").2).head? ≠ some (DbAction.removedRow "a") := by
  constructor
  · rfl
  · decide

/-- C5, amended: `delete_face` attempts the artifact removal **first** (when a
row exists), tolerating failure, and only afterwards removes the database row;
the row removal is always the last action and is never prevented by the
artifact outcome, so `get_face` of the id returns `none` afterwards. -/
theorem claim_C5_delete (db : DbState) (face_id : String) :
    get_face (delete_face db face_id).1 face_id = none ∧
    ∃ pre, (delete_face db face_id).2 = pre ++ [DbAction.removedRow face_id] ∧
      ∀ a ∈ pre, ∃ p, a = DbAction.removedFile p ∨ a = DbAction.fileRemovalFailed p := by
  constructor
  · unfold get_face
    rw [delete_face_rows, find?_id_filter_ne]
    rfl
  · rcases delete_face_trace db face_id with h | ⟨p, h | h⟩
    · exact ⟨[], by simpa using h, by simp⟩
    · refine ⟨[DbAction.removedFile p], by simpa using h, ?_⟩
      intro a ha
      simp only [List.mem_singleton] at ha
      exact ⟨p, Or.inl ha⟩
    · refine ⟨[DbAction.fileRemovalFailed p], by simpa using h, ?_⟩
      intro a ha
      simp only [List.mem_singleton] at ha
      exact ⟨p, Or.inr ha⟩

/-- C4: the source's `update_face` is broken in two ways visible in its query
construction. First, it never inspects the number of affected rows: after
`execute` it returns `Ok(())` unconditionally (storage.rs:201-209), so an
update of a missing id cannot fail with `NotFound`. Second, the placeholder
numbers are hard-coded while the binds are positional: a confidence-only
update produces SQL reading placeholder `$3`, yet the rendered confidence is
the **first** bind and the third bind is the empty string — the statement
would set `confidence` from `""`, not from the supplied value. -/
theorem claim_C4_update_bug :
    build_update_sql ⟨none, none, some (F.num (mkRat 1 2))⟩ =
      ("UPDATE faces SET confidence = $3 WHERE id = $4", ["1/2"]) ∧
    update_binds ["1/2"] = ["1/2", "", ""] ∧
    (update_binds ["1/2"]).getD 2 "" = "" ∧
    ("1/2" : String) ≠ "" := by
  exact ⟨by decide, rfl, rfl, by decide⟩

/-- C6: the source's `search_faces` hard-codes placeholder numbers but binds
positionally. A query supplying only `min_confidence` produces SQL whose
confidence clause reads placeholder `$5`, while the rendered bound is the
**first** bind and the fifth bind is the empty string — the statement would
compare `confidence` against `""`, not against the supplied minimum. -/
theorem claim_C6_search_bug :
    build_search_sql ⟨none, none, none, none, some (F.num (mkRat 1 2))⟩ =
      ("SELECT * FROM faces WHERE 1=1 AND confidence >= $5 ORDER BY timestamp DESC",
        ["1/2"]) ∧
    search_binds ["1/2"] = ["1/2", "", "", "", ""] ∧
    (search_binds ["1/2"]).getD 4 "" = "" ∧
    ("1/2" : String) ≠ "" := by
  exact ⟨by decide, rfl, rfl, by decide⟩

lemma F_blt_nan_right (t : F) : F.blt t F.nan = false := by cases t <;> rfl

lemma F_isNan_false_of_blt {t s : F} (h : F.blt t s = true) : s.isNan = false := by
  cases s <;> simp_all [F_blt_nan_right, F.isNan]

/-- Every score kept by the threshold filter is comparable: `nan > threshold`
is false on IEEE comparisons, so a `nan` similarity never enters `matches`. -/
lemma thresholdMatches_no_nan (q : List F) (db : List FaceEmbedding) (t : F) :
    ∀ m ∈ thresholdMatches q db t, m.2.isNan = false := by
  intro m hm
  simp only [thresholdMatches, List.mem_filterMap] at hm
  obtain ⟨e, _, hsome⟩ := hm
  by_cases hb : F.blt t (cosine_similarity q e.embedding) = true
  · rw [if_pos hb] at hsome
    injection hsome with h2
    subst h2
    exact F_isNan_false_of_blt hb
  · rw [if_neg hb] at hsome
    exact absurd hsome (by simp)

lemma F_leTotal_refl (x : F) : F.leTotal x x = true := by
  cases x <;> simp [F.leTotal]

lemma F_leTotal_trans (a b c : F) (hab : F.leTotal a b = true)
    (hbc : F.leTotal b c = true) : F.leTotal a c = true := by
  cases a <;> cases b <;> cases c <;> simp_all [F.leTotal]
  exact le_trans hab hbc

lemma F_leTotal_total (a b : F) : (F.leTotal a b || F.leTotal b a) = true := by
  cases a <;> cases b <;> simp [F.leTotal]
  exact le_total _ _

lemma F_ble_eq_leTotal {x y : F} (hx : x.isNan = false) (hy : y.isNan = false) :
    F.ble x y = F.leTotal x y := by
  cases x <;> cases y <;> simp_all [F.isNan, F.ble, F.leTotal]

/-- The panic guard of `find_matches` never fires: the threshold filter admits
no `nan` score, so the comparator of the sort is never handed a `nan`. -/
lemma find_matches_eq (q : List F) (db : List FaceEmbedding) (t : F) :
    find_matches q db t =
      some ((thresholdMatches q db t).mergeSort fun a b => F.leTotal b.2 a.2) := by
  have hno : ¬(2 ≤ (thresholdMatches q db t).length ∧
      ((thresholdMatches q db t).any fun m => m.2.isNan) = true) := by
    rintro ⟨-, hany⟩
    rw [List.any_eq_true] at hany
    obtain ⟨m, hm, hnan⟩ := hany
    rw [thresholdMatches_no_nan q db t m hm] at hnan
    exact absurd hnan (by simp)
  simp only [find_matches]
  rw [if_neg hno]

/-- C10, counterexample at the input the claim cites (a zero-norm query, so
every computed similarity is `nan`): `find_matches` returns a result — the
empty match list — rather than panicking. A `nan` similarity fails the strict
`> threshold` filter, so no `nan` reaches the sort comparator. -/
theorem claim_C10_counterexample :
    find_matches [F.num 0]
      [⟨[F.num 1], "b", ⟨none, [], 0, "s", F.num 1⟩⟩,
       ⟨[F.num 0], "c", ⟨none, [], 0, "s", F.num 1⟩⟩] (F.num (mkRat 1 2)) =
      some [] := by
  have h : thresholdMatches [F.num 0]
      [⟨[F.num 1], "b", ⟨none, [], 0, "s", F.num 1⟩⟩,
       ⟨[F.num 0], "c", ⟨none, [], 0, "s", F.num 1⟩⟩] (F.num (mkRat 1 2)) = [] := by
    decide
  rw [find_matches_eq, h, List.mergeSort_nil]

/-- C10, amended: `find_matches` is total. Any `nan` similarity (e.g. from a
zero-norm query or corpus vector) is excluded by the strict threshold
comparison, so `partial_cmp(..).unwrap()` in the sort comparator never observes
an incomparable pair and never panics. -/
theorem claim_C10_total (q : List F) (db : List FaceEmbedding) (t : F) :
    find_matches q db t ≠ none := by
  rw [find_matches_eq]
  simp

/-- C7: `find_matches` returns exactly the corpus entries whose similarity is
strictly above the threshold (`thresholdMatches`, in corpus order), sorted in
descending score order, ties kept in corpus order (filtering the output by any
score value yields exactly the corresponding subsequence of the unsorted match
list). Determinism across runs is purity of the function. -/
theorem claim_C7_find_matches (q : List F) (db : List FaceEmbedding) (t : F) :
    ∃ l, find_matches q db t = some l ∧
      l.Perm (thresholdMatches q db t) ∧
      l.Pairwise (fun a b => F.ble b.2 a.2 = true) ∧
      ∀ s : F, l.filter (fun p => p.2 == s) =
        (thresholdMatches q db t).filter (fun p => p.2 == s) := by
  have trans : ∀ a b c : String × F, F.leTotal b.2 a.2 = true →
      F.leTotal c.2 b.2 = true → F.leTotal c.2 a.2 = true :=
    fun a b c hab hbc => F_leTotal_trans c.2 b.2 a.2 hbc hab
  have total : ∀ a b : String × F,
      (F.leTotal b.2 a.2 || F.leTotal a.2 b.2) = true :=
    fun a b => F_leTotal_total b.2 a.2
  refine ⟨(thresholdMatches q db t).mergeSort (fun a b => F.leTotal b.2 a.2),
    find_matches_eq q db t, List.mergeSort_perm _ _, ?_, ?_⟩
  · have hp := @List.sorted_mergeSort (String × F)
      (fun a b => F.leTotal b.2 a.2) trans total
      (thresholdMatches q db t)
    refine hp.imp_of_mem ?_
    intro a b ha hb hle
    rw [List.mem_mergeSort] at ha hb
    rw [F_ble_eq_leTotal (thresholdMatches_no_nan q db t b hb)
      (thresholdMatches_no_nan q db t a ha)]
    exact hle
  · intro s
    have hmemeq : ∀ p ∈ (thresholdMatches q db t).filter (fun p => p.2 == s),
        (fun p : String × F => p.2 == s) p = true :=
      fun p hp => (List.mem_filter.mp hp).2
    have hpair : ((thresholdMatches q db t).filter fun p => p.2 == s).Pairwise
        (fun a b : String × F => F.leTotal b.2 a.2 = true) := by
      apply List.pairwise_of_forall_mem_list
      intro a ha b hb
      have ha2 : a.2 = s := by simpa using (List.mem_filter.mp ha).2
      have hb2 : b.2 = s := by simpa using (List.mem_filter.mp hb).2
      rw [ha2, hb2]
      exact F_leTotal_refl s
    have hsub : List.Sublist ((thresholdMatches q db t).filter fun p => p.2 == s)
        (thresholdMatches q db t) := List.filter_sublist _
    have hc := @List.sublist_mergeSort (String × F)
      (fun a b => F.leTotal b.2 a.2) _ trans total _ hpair hsub
    have hfil : List.Sublist ((thresholdMatches q db t).filter fun p => p.2 == s)
        (((thresholdMatches q db t).mergeSort
          (fun a b : String × F => F.leTotal b.2 a.2)).filter fun p => p.2 == s) := by
      have h2 := hc.filter (fun p => p.2 == s)
      rwa [List.filter_eq_self.mpr hmemeq] at h2
    have hlen : (((thresholdMatches q db t).mergeSort
          (fun a b : String × F => F.leTotal b.2 a.2)).filter fun p => p.2 == s).length =
        ((thresholdMatches q db t).filter fun p => p.2 == s).length :=
      ((List.mergeSort_perm (thresholdMatches q db t) _).filter _).length_eq
    exact (hfil.eq_of_length hlen.symm).symm

/-- One unfolding step of `cluster_embeddings` on a non-empty corpus. -/
lemma cluster_step (seed : FaceEmbedding) (rest : List FaceEmbedding) (t : F) :
    cluster_embeddings (seed :: rest) t =
      (seed.face_id :: (rest.filter fun e =>
          F.blt t (cosine_similarity seed.embedding e.embedding)).map (fun e => e.face_id)) ::
        cluster_embeddings (rest.filter fun e =>
          ! F.blt t (cosine_similarity seed.embedding e.embedding)) t := by
  rw [cluster_embeddings]

/-- The greedy seed-based loop yields a partition: the concatenation of the
clusters is a permutation of the input ids, and no emitted cluster is empty. -/
lemma cluster_partition :
    ∀ (n : Nat) (embs : List FaceEmbedding) (t : F), embs.length ≤ n →
      ((cluster_embeddings embs t).flatten).Perm (embs.map fun e => e.face_id) ∧
      ∀ c ∈ cluster_embeddings embs t, c ≠ [] := by
  intro n
  induction n with
  | zero =>
    intro embs t hlen
    have hnil : embs = [] := List.length_eq_zero.mp (Nat.le_zero.mp hlen)
    subst hnil
    exact ⟨by simp [cluster_embeddings], by simp [cluster_embeddings]⟩
  | succ n ih =>
    intro embs t hlen
    cases embs with
    | nil => exact ⟨by simp [cluster_embeddings], by simp [cluster_embeddings]⟩
    | cons seed rest =>
      have hr : (rest.filter fun e =>
          ! F.blt t (cosine_similarity seed.embedding e.embedding)).length ≤ n := by
        have h1 := List.length_filter_le
          (fun e => ! F.blt t (cosine_similarity seed.embedding e.embedding)) rest
        simp only [List.length_cons, Nat.succ_le_succ_iff] at hlen
        omega
      obtain ⟨ihp, ihne⟩ := ih _ t hr
      rw [cluster_step]
      constructor
      · simp only [List.flatten_cons, List.map_cons, List.cons_append]
        refine List.Perm.cons _ ?_
        have h2 := List.Perm.append_left
          ((rest.filter fun e =>
            F.blt t (cosine_similarity seed.embedding e.embedding)).map
              fun e => e.face_id) ihp
        have h4 := (List.filter_append_perm (fun e =>
            F.blt t (cosine_similarity seed.embedding e.embedding)) rest).map
          (fun e => e.face_id)
        rw [List.map_append] at h4
        exact h2.trans h4
      · intro c hc
        rcases List.mem_cons.mp hc with h | h
        · subst h; simp
        · exact ihne c h

/-- C8: `cluster_embeddings` produces a partition of the input: the clusters
flatten to a permutation of the corpus ids (each input item lands in exactly
one cluster), no cluster is empty, the empty corpus yields the empty
partition, and a one-element corpus yields one singleton cluster. -/
theorem claim_C8_cluster (embs : List FaceEmbedding) (t : F) (e : FaceEmbedding) :
    ((cluster_embeddings embs t).flatten).Perm (embs.map fun x => x.face_id) ∧
    (∀ c ∈ cluster_embeddings embs t, c ≠ []) ∧
    cluster_embeddings [] t = [] ∧
    cluster_embeddings [e] t = [[e.face_id]] := by
  obtain ⟨h1, h2⟩ := cluster_partition embs.length embs t le_rfl
  refine ⟨h1, h2, by rw [cluster_embeddings], ?_⟩
  rw [cluster_step]
  simp [cluster_embeddings]

lemma find?_fst_map {β : Type} (l : List (String × β)) (f : String × β → β) (key : String) :
    ((l.map fun c => (c.1, f c)).find? fun c => c.1 == key) =
      (l.find? fun c => c.1 == key).map fun c => (c.1, f c) := by
  induction l with
  | nil => rfl
  | cons a tl ih =>
    simp only [List.map_cons, List.find?_cons]
    by_cases h : (a.1 == key) = true
    · simp [h]
    · simp [h, ih]

lemma wsBuffer_broadcast (m : WsManager) (e : WsMessage) (id : String) :
    wsBuffer (broadcast m e) id = (wsBuffer m id).map
      (fun buf => if buf.length < wsChannelCapacity then buf ++ [e] else buf) := by
  unfold wsBuffer broadcast
  rw [find?_fst_map m.connections
    (fun c => if c.2.length < wsChannelCapacity then c.2 ++ [e] else c.2) id]
  cases m.connections.find? (fun c => c.1 == id) <;> rfl

lemma wsBuffer_remove_self (m : WsManager) (id : String) :
    wsBuffer (remove_connection m id) id = none := by
  unfold wsBuffer remove_connection
  rw [List.find?_eq_none.mpr, Option.map_none']
  intro c hc
  have := (List.mem_filter.mp hc).2
  simp_all [bne]

lemma remove_idem (m : WsManager) (id : String) :
    remove_connection (remove_connection m id) id = remove_connection m id := by
  unfold remove_connection
  simp [List.filter_filter]

lemma remove_unknown (m : WsManager) (id : String) (h : wsBuffer m id = none) :
    remove_connection m id = m := by
  unfold wsBuffer at h
  rw [Option.map_eq_none'] at h
  have hall := List.find?_eq_none.mp h
  cases m with
  | mk conns =>
    unfold remove_connection
    simp only [WsManager.mk.injEq]
    apply List.filter_eq_self.mpr
    intro c hc
    have := hall c hc
    simp_all [bne]

lemma find?_filter_ne_key {β : Type} (l : List (String × β)) (id j : String) (h : j ≠ id) :
    ((l.filter fun c => c.1 != id).find? fun c => c.1 == j) =
      l.find? fun c => c.1 == j := by
  induction l with
  | nil => rfl
  | cons a tl ih =>
    by_cases ha : (a.1 == j) = true
    · have haj : a.1 = j := by simpa using ha
      have hne : (a.1 != id) = true := by simp [haj, h]
      simp [List.filter_cons, hne, List.find?_cons, ha]
    · by_cases hid : (a.1 != id) = true
      · simp [List.filter_cons, hid, List.find?_cons, ha, ih]
      · simp [List.filter_cons, hid, List.find?_cons, ha, ih]

lemma wsBuffer_remove_other (m : WsManager) (id j : String) (h : j ≠ id) :
    wsBuffer (remove_connection m id) j = wsBuffer m j := by
  unfold wsBuffer remove_connection
  rw [find?_filter_ne_key m.connections id j h]

/-- C9, counterexample. A subscriber whose buffer is at the channel capacity
(100) silently misses a broadcast: the manager is unchanged and the event is
not in that subscriber's buffer, so `broadcast` does **not** deliver to every
registered subscriber. -/
theorem claim_C9_counterexample :
    broadcast ⟨[("a", List.replicate 100 (WsMessage.Error "x"))]⟩
        (WsMessage.FaceDeleted "z") =
      ⟨[("a", List.replicate 100 (WsMessage.Error "x"))]⟩ ∧
    wsBuffer (broadcast ⟨[("a", List.replicate 100 (WsMessage.Error "x"))]⟩
        (WsMessage.FaceDeleted "z")) "a" =
      some (List.replicate 100 (WsMessage.Error "x")) ∧
    WsMessage.FaceDeleted "z" ∉ List.replicate 100 (WsMessage.Error "x") := by
  refine ⟨rfl, rfl, ?_⟩
  decide

/-- C9, amended: `broadcast` appends the event (in call order) to the buffer
of every subscriber registered at call time whose buffer is below the channel
capacity of 100; a full buffer silently misses the event; no unregistered id
gains a buffer. `remove_connection` removes exactly the given id, is
idempotent, is a no-op on an unknown id, and leaves other subscribers — which
a subsequent broadcast then still reaches — untouched. -/
theorem claim_C9_hub (m : WsManager) (e : WsMessage) (id j : String) :
    (∀ buf, wsBuffer m id = some buf → buf.length < wsChannelCapacity →
      wsBuffer (broadcast m e) id = some (buf ++ [e])) ∧
    (∀ buf, wsBuffer m id = some buf → ¬ buf.length < wsChannelCapacity →
      wsBuffer (broadcast m e) id = some buf) ∧
    (wsBuffer m id = none → wsBuffer (broadcast m e) id = none) ∧
    wsBuffer (remove_connection m id) id = none ∧
    remove_connection (remove_connection m id) id = remove_connection m id ∧
    (wsBuffer m id = none → remove_connection m id = m) ∧
    (j ≠ id → wsBuffer (remove_connection m id) j = wsBuffer m j) := by
  refine ⟨?_, ?_, ?_, wsBuffer_remove_self m id, remove_idem m id,
    remove_unknown m id, wsBuffer_remove_other m id j⟩
  · intro buf hbuf hlt
    rw [wsBuffer_broadcast, hbuf, Option.map_some', if_pos hlt]
  · intro buf hbuf hlt
    rw [wsBuffer_broadcast, hbuf, Option.map_some', if_neg hlt]
  · intro hnone
    rw [wsBuffer_broadcast, hnone, Option.map_none']
